import Mathlib

/-!
Shallow embedding of the `image_upscaler` repository.

Source files embedded:
- `app.py`: FastAPI glue with `validate_image_file` and the `/upscale`
  handler `upscale_image`.
- `src/entity/image_upscaler_config.py`: `ConfigEntity` and
  `ImageUpscalerConfig`.

The filesystem is modelled as a list of existing paths; the external
pipeline `initialte_upscaler_pipeline` is an opaque parameter that,
given the input path and the filesystem, either raises (returns an
error message) or returns an output path, together with the filesystem
it leaves behind.  Python exceptions are modelled with `Except`.
-/

namespace ImageUpscaler

/-- Constant `MAX_FILE_SIZE_MB = 20` from `app.py`. -/
def MAX_FILE_SIZE_MB : Nat := 20

/-- Constant `MAX_FILE_SIZE_BYTES = MAX_FILE_SIZE_MB * 1024 * 1024` from `app.py`. -/
def MAX_FILE_SIZE_BYTES : Nat := MAX_FILE_SIZE_MB * 1024 * 1024

/-- The allow-list `ALLOWED_IMAGE_TYPES` from `app.py`. -/
def ALLOWED_IMAGE_TYPES : List String :=
  ["image/jpeg", "image/png", "image/jpg", "image/webp"]

/-- Constant `TEMP_UPLOAD_DIR = "temp_uploads"` from `app.py`. -/
def TEMP_UPLOAD_DIR : String := "temp_uploads"

/-- An uploaded file: its original filename, its declared content type
(`none` models Python `None`) and its raw bytes. -/
structure UploadFile where
  filename : String
  content_type : Option String
  content : List Nat
  deriving DecidableEq, Repr

/-- A raised `HTTPException`: status code and detail string. -/
structure HTTPError where
  status_code : Nat
  detail : String
  deriving DecidableEq, Repr

/-- The detail string of the invalid-type `HTTPException` in
`validate_image_file`. -/
def invalid_type_detail : String :=
  "Invalid file type. Only JPEG, PNG, JPG, and WEBP are allowed."

/-- The detail string of the oversized-file `HTTPException` in
`validate_image_file` (the f-string with `MAX_FILE_SIZE_MB` filled in). -/
def size_limit_detail : String :=
  "File size exceeds the " ++ toString MAX_FILE_SIZE_MB ++ " MB limit."

/-- Python `str.lower()`, modelled character-wise (ASCII case folding;
all allow-listed media types are ASCII). -/
def str_lower (s : String) : String := String.mk (s.data.map Char.toLower)

/-- The Python guard `not file.content_type or file.content_type.lower()
not in ALLOWED_IMAGE_TYPES`, negated: `true` iff the declared content
type is present, non-empty and its lowercasing is allow-listed. -/
def contentTypeOk : Option String → Bool
  | none => false
  | some s => !(s == "") && ALLOWED_IMAGE_TYPES.contains (str_lower s)

/-- Function `validate_image_file` from `app.py`: first the content-type check,
then the size check (`len(content)` plays the role of the
seek/tell size probe). -/
def validate_image_file (file : UploadFile) : Except HTTPError Unit :=
  if !(contentTypeOk file.content_type) then
    Except.error ⟨400, invalid_type_detail⟩
  else if file.content.length > MAX_FILE_SIZE_BYTES then
    Except.error ⟨400, size_limit_detail⟩
  else
    Except.ok ()

/-- Python `str.split('.')` on a list of characters: splits on every
dot, keeping empty pieces; the result is always non-empty. -/
def splitOnDot : List Char → List (List Char)
  | [] => [[]]
  | c :: rest =>
    match splitOnDot rest with
    | [] => [[c]]
    | h :: t => if c = '.' then [] :: h :: t else (c :: h) :: t

/-- Expression `file.filename.split` on a dot, indexed at -1, from `app.py`: the last piece of the
dot-split of the filename. -/
def extOf (filename : String) : String :=
  String.mk ((splitOnDot filename.data).getLastD [])

/-- Temporary filename from `app.py`: the drawn uuid (a parameter here),
a dot, and the derived extension. -/
def temp_filename_of (u fname : String) : String :=
  u ++ "." ++ extOf fname

/-- Model of `os.path.join` for the one relative-path use in `app.py`. -/
def os_path_join (a b : String) : String := a ++ "/" ++ b

/-- The temporary path the handler writes the upload to:
`os.path.join(TEMP_UPLOAD_DIR, temp_filename)`. -/
def temp_path_of (u fname : String) : String :=
  os_path_join TEMP_UPLOAD_DIR (temp_filename_of u fname)

/-- The filesystem: the list of paths that currently exist. -/
structure FS where
  files : List String
  deriving DecidableEq, Repr

/-- Model of `os.path.exists`. -/
def pathExists (fs : FS) (p : String) : Bool := fs.files.contains p

/-- Writing a file creates (at most adds) the path. -/
def writeFile (fs : FS) (p : String) : FS := ⟨p :: fs.files⟩

/-- The value returned by `FileResponse(output_path,
media_type="image/jpeg", filename=...)`; carries HTTP status 200. -/
structure FileResponseR where
  path : String
  media_type : String
  filename : String
  deriving DecidableEq, Repr

/-- The HTTP status of a handler outcome: 200 for a `FileResponse`,
otherwise the raised `HTTPException`'s status code. -/
def statusOf : Except HTTPError FileResponseR → Nat
  | Except.ok _ => 200
  | Except.error e => e.status_code

instance {ε α : Type} [DecidableEq ε] [DecidableEq α] :
    DecidableEq (Except ε α) := fun x y =>
  match x, y with
  | Except.ok a, Except.ok b =>
      if h : a = b then isTrue (by rw [h])
      else isFalse (fun he => h (by injection he))
  | Except.error a, Except.error b =>
      if h : a = b then isTrue (by rw [h])
      else isFalse (fun he => h (by injection he))
  | Except.ok _, Except.error _ => isFalse (fun he => Except.noConfusion he)
  | Except.error _, Except.ok _ => isFalse (fun he => Except.noConfusion he)

/-- Everything observable about one run of the handler: the response
(or raised `HTTPException`), the final filesystem, the temp path the
upload was written to (`none` when validation failed before the
write), and the `logging.info` / `logging.error` messages emitted. -/
structure HandlerResult where
  response : Except HTTPError FileResponseR
  fs : FS
  tempPath : Option String
  infoLogs : List String
  errorLogs : List String
  deriving DecidableEq, Repr

/-- The `/upscale` handler `upscale_image` from `app.py`.
`initialte_upscaler_pipeline` is the opaque external pipeline; `uuid4`
is the random identifier drawn by `uuid.uuid4()`; `fs0` is the
filesystem when the request arrives.  `HTTPException`s raised inside
the `try` are re-raised unchanged by `except HTTPException`; any other
exception (here: one raised by the pipeline call) is logged and mapped
to a 500 with detail "Internal server error". -/
def upscale_image
    (initialte_upscaler_pipeline : String → FS → Except String String × FS)
    (uuid4 : String) (file : UploadFile) (fs0 : FS) : HandlerResult :=
  match validate_image_file file with
  | Except.error e =>
      { response := Except.error e, fs := fs0, tempPath := none,
        infoLogs := [], errorLogs := [] }
  | Except.ok _ =>
      let temp_path := temp_path_of uuid4 file.filename
      let fs1 := writeFile fs0 temp_path
      let log1 := "Image received and saved to: " ++ temp_path
      match initialte_upscaler_pipeline temp_path fs1 with
      | (Except.error e, fs2) =>
          { response := Except.error ⟨500, "Internal server error"⟩,
            fs := fs2, tempPath := some temp_path, infoLogs := [log1],
            errorLogs := ["API error during image upscaling: " ++ e] }
      | (Except.ok output_path, fs2) =>
          if !(pathExists fs2 output_path) then
            { response :=
                Except.error ⟨500, "Upscaling failed: output file not found."⟩,
              fs := fs2, tempPath := some temp_path, infoLogs := [log1],
              errorLogs := [] }
          else
            { response :=
                Except.ok ⟨output_path, "image/jpeg",
                           "upscaled_" ++ file.filename⟩,
              fs := fs2, tempPath := some temp_path,
              infoLogs := [log1, "Upscaled image ready at: " ++ output_path],
              errorLogs := [] }

/-- Class `ConfigEntity` from `image_upscaler_config.py`: the four settings
read from `src.constants` (their concrete values are outside the given
source, so the structure ranges over all field values). -/
structure ConfigEntity where
  model_name : String
  max_size : Nat
  tile_overlap : Nat
  output_dir : String
  deriving DecidableEq, Repr

/-- Class `ImageUpscalerConfig` from `image_upscaler_config.py`. -/
structure ImageUpscalerConfig where
  model_name : String
  max_size : Nat
  tile_overlap : Nat
  output_dir : String
  deriving DecidableEq, Repr

/-- Constructor `ImageUpscalerConfig.__init__(self, config)`: reads the four fields
of `config` and returns the constructed object together with the (by
purity unchanged) argument, making the absence of mutation explicit. -/
def ImageUpscalerConfig.init (config : ConfigEntity) :
    ImageUpscalerConfig × ConfigEntity :=
  (⟨config.model_name, config.max_size, config.tile_overlap,
    config.output_dir⟩, config)

/-! ### Supporting lemmas -/

theorem splitOnDot_ne_nil (l : List Char) : splitOnDot l ≠ [] := by
  cases l with
  | nil => simp [splitOnDot]
  | cons c rest =>
    simp only [splitOnDot]
    cases h : splitOnDot rest with
    | nil => simp
    | cons hd tl => by_cases hc : c = '.' <;> simp [hc]

theorem splitOnDot_no_dot (l : List Char) (h : '.' ∉ l) : splitOnDot l = [l] := by
  induction l with
  | nil => rfl
  | cons c rest ih =>
    have hc : c ≠ '.' := fun hc => h (hc ▸ List.mem_cons_self c rest)
    have hr : '.' ∉ rest := fun hr => h (List.mem_cons_of_mem c hr)
    simp [splitOnDot, ih hr, hc]

theorem splitOnDot_length_of_dot (l : List Char) (h : '.' ∈ l) :
    2 ≤ (splitOnDot l).length := by
  induction l with
  | nil => cases h
  | cons c rest ih =>
    by_cases hc : c = '.'
    · subst hc
      simp only [splitOnDot]
      cases hr : splitOnDot rest with
      | nil => exact absurd hr (splitOnDot_ne_nil rest)
      | cons hd tl => simp
    · have hr : '.' ∈ rest := by
        rcases List.mem_cons.mp h with h1 | h2
        · exact absurd h1.symm hc
        · exact h2
      have := ih hr
      simp only [splitOnDot]
      cases hsp : splitOnDot rest with
      | nil => exact absurd hsp (splitOnDot_ne_nil rest)
      | cons hd tl =>
        rw [hsp] at this
        simp only [List.length_cons] at this ⊢
        simp [hc]
        omega

theorem getLastD_irrel {α : Type} (l : List α) (h : l ≠ []) (a b : α) :
    l.getLastD a = l.getLastD b := by
  cases l with
  | nil => exact absurd rfl h
  | cons x xs => rw [List.getLastD_cons, List.getLastD_cons]

theorem getLastD_splitOnDot_append (l1 l2 : List Char) :
    (splitOnDot (l1 ++ '.' :: l2)).getLastD [] = (splitOnDot l2).getLastD [] := by
  induction l1 with
  | nil =>
    simp only [List.nil_append, splitOnDot]
    cases h : splitOnDot l2 with
    | nil => exact absurd h (splitOnDot_ne_nil l2)
    | cons hd tl => simp [List.getLastD_cons]
  | cons c l1 ih =>
    have hmem : '.' ∈ l1 ++ '.' :: l2 := List.mem_append_right _ (List.mem_cons_self _ _)
    simp only [List.cons_append, splitOnDot]
    cases h : splitOnDot (l1 ++ '.' :: l2) with
    | nil => exact absurd h (splitOnDot_ne_nil _)
    | cons hd tl =>
      have hlen : 2 ≤ (hd :: tl).length := h ▸ splitOnDot_length_of_dot _ hmem
      have htl : tl ≠ [] := by
        intro hnil
        rw [hnil] at hlen
        simp at hlen
      rw [h] at ih
      by_cases hc : c = '.'
      · simpa [hc, List.getLastD_cons] using ih
      · simp only [hc, if_false, List.getLastD_cons] at ih ⊢
        calc tl.getLastD (c :: hd) = tl.getLastD hd := getLastD_irrel tl htl _ _
          _ = (splitOnDot l2).getLastD [] := ih

theorem extOf_no_dot (fname : String) (h : '.' ∉ fname.data) : extOf fname = fname := by
  unfold extOf
  rw [splitOnDot_no_dot _ h]
  rfl

theorem extOf_after_last_dot (fname : String) (pre post : List Char)
    (hdata : fname.data = pre ++ '.' :: post) (hpost : '.' ∉ post) :
    extOf fname = String.mk post := by
  unfold extOf
  rw [hdata, getLastD_splitOnDot_append, splitOnDot_no_dot _ hpost]
  rfl

theorem temp_path_of_inj (u v fname : String)
    (h : temp_path_of u fname = temp_path_of v fname) : u = v := by
  unfold temp_path_of os_path_join temp_filename_of at h
  have h2 := congrArg String.data h
  simp only [String.data_append, List.append_assoc] at h2
  have h3 := List.append_cancel_left h2
  have h4 := List.append_cancel_left h3
  exact String.ext (List.append_cancel_right h4)

theorem contentTypeOk_some (s : String) :
    contentTypeOk (some s) = ALLOWED_IMAGE_TYPES.contains (str_lower s) := by
  by_cases h : s = ""
  · subst h; decide
  · simp [contentTypeOk, h]

theorem contains_str_lower_of_mem (s : String) (h : s ∈ ALLOWED_IMAGE_TYPES) :
    ALLOWED_IMAGE_TYPES.contains (str_lower s) = true := by
  simp only [ALLOWED_IMAGE_TYPES, List.mem_cons, List.not_mem_nil,
    or_false] at h
  rcases h with rfl | rfl | rfl | rfl <;> decide

theorem validate_type_error (file : UploadFile)
    (h : contentTypeOk file.content_type = false) :
    validate_image_file file = Except.error ⟨400, invalid_type_detail⟩ := by
  simp [validate_image_file, h]

theorem validate_size_error (file : UploadFile)
    (h : contentTypeOk file.content_type = true)
    (hsize : file.content.length > MAX_FILE_SIZE_BYTES) :
    validate_image_file file = Except.error ⟨400, size_limit_detail⟩ := by
  simp [validate_image_file, h, hsize]

theorem validate_ok (file : UploadFile)
    (h : contentTypeOk file.content_type = true)
    (hsize : file.content.length ≤ MAX_FILE_SIZE_BYTES) :
    validate_image_file file = Except.ok () := by
  simp [validate_image_file, h, Nat.not_lt.mpr hsize]

theorem pathExists_writeFile (fs : FS) (p : String) :
    pathExists (writeFile fs p) p = true := by
  simp [pathExists, writeFile]

theorem validate_of_ok_type (file : UploadFile)
    (h : contentTypeOk file.content_type = true) :
    validate_image_file file =
      (if file.content.length > MAX_FILE_SIZE_BYTES then
        Except.error ⟨400, size_limit_detail⟩
      else Except.ok ()) := by
  simp [validate_image_file, h]

theorem upscale_image_validation_error
    (p : String → FS → Except String String × FS) (u : String)
    (file : UploadFile) (fs0 : FS) (e : HTTPError)
    (h : validate_image_file file = Except.error e) :
    upscale_image p u file fs0 =
      ⟨Except.error e, fs0, none, [], []⟩ := by
  simp [upscale_image, h]

theorem upscale_image_tempPath
    (p : String → FS → Except String String × FS) (u : String)
    (file : UploadFile) (fs0 : FS)
    (hval : validate_image_file file = Except.ok ()) :
    (upscale_image p u file fs0).tempPath =
      some (temp_path_of u file.filename) := by
  simp only [upscale_image, hval]
  rcases hp : p (temp_path_of u file.filename)
      (writeFile fs0 (temp_path_of u file.filename)) with ⟨res, fs2⟩
  cases res with
  | error e => simp [hp]
  | ok out => by_cases hex : pathExists fs2 out <;> simp [hp, hex]

/-! ### Concrete fixtures used by witnesses and counterexamples -/

/-- A pipeline that creates the file `out.jpg` and returns its path. -/
def pipelineOut : String → FS → Except String String × FS :=
  fun _ fs => (Except.ok "out.jpg", ⟨"out.jpg" :: fs.files⟩)

/-- A pipeline that returns a path it never created. -/
def pipelineMissing : String → FS → Except String String × FS :=
  fun _ fs => (Except.ok "missing.jpg", fs)

/-- A pipeline that raises an exception with message `boom`. -/
def pipelineThrow : String → FS → Except String String × FS :=
  fun _ fs => (Except.error "boom", fs)

/-- A small, valid PNG upload. -/
def smallPng : UploadFile := ⟨"a.png", some "image/png", [0, 1, 2]⟩

/-- An upload whose declared content type is upper-case. -/
def upperPng : UploadFile := ⟨"a.png", some "IMAGE/PNG", []⟩

/-- An oversized upload with an allowed content type. -/
def bigPng : UploadFile :=
  ⟨"a.png", some "image/png", List.replicate (MAX_FILE_SIZE_BYTES + 1) 0⟩

/-- An oversized upload with a missing content type. -/
def bigBad : UploadFile :=
  ⟨"a.png", none, List.replicate (MAX_FILE_SIZE_BYTES + 1) 0⟩

/-- The empty filesystem. -/
def emptyFS : FS := ⟨[]⟩

/-! ### Claims -/

/-- C1 (amended): for every upload whose declared content-type is
missing, empty, or not in the allow-list after ASCII lowercasing, the
handler returns the 400 invalid-type error naming the allowed types,
leaves the filesystem untouched, writes no temp file, and never
invokes the pipeline (the outcome is the same for every pipeline). -/
theorem claim_C1
    (p : String → FS → Except String String × FS) (u : String)
    (file : UploadFile) (fs0 : FS)
    (h : file.content_type = none ∨
         ∃ s, file.content_type = some s ∧
           ALLOWED_IMAGE_TYPES.contains (str_lower s) = false) :
    (upscale_image p u file fs0).response =
      Except.error ⟨400, invalid_type_detail⟩ ∧
    (upscale_image p u file fs0).fs = fs0 ∧
    (upscale_image p u file fs0).tempPath = none ∧
    ∀ p2, upscale_image p2 u file fs0 = upscale_image p u file fs0 := by
  have hbad : contentTypeOk file.content_type = false := by
    rcases h with h | ⟨s, hs, hlow⟩
    · rw [h]; rfl
    · rw [hs, contentTypeOk_some, hlow]
  have hv := validate_type_error file hbad
  refine ⟨?_, ?_, ?_, fun p2 => ?_⟩ <;>
    rw [upscale_image_validation_error _ u file fs0 _ hv]
  exact (upscale_image_validation_error p u file fs0 _ hv).symm

/-- Witness for C1 (amended) at a `text/plain` upload. -/
theorem claim_C1_witness :
    (upscale_image pipelineOut "u" ⟨"a.png", some "text/plain", []⟩
        emptyFS).response =
      Except.error ⟨400, invalid_type_detail⟩ :=
  (claim_C1 pipelineOut "u" ⟨"a.png", some "text/plain", []⟩ emptyFS
    (Or.inr ⟨"text/plain", rfl, by decide⟩)).1

/-- C1 as frozen is false: the declared type `IMAGE/PNG` is not an
element of the allow-list, yet the endpoint does not return 400 (the
request succeeds with status 200). -/
theorem claim_C1_counterexample :
    upperPng.content_type = some "IMAGE/PNG" ∧
    ALLOWED_IMAGE_TYPES.contains "IMAGE/PNG" = false ∧
    statusOf (upscale_image pipelineOut "u" upperPng emptyFS).response = 200 :=
  ⟨rfl, by decide, by decide⟩

/-- C2 (amended): for every upload that passes the content-type check
and whose byte length strictly exceeds 20 MiB, the handler returns the
400 size-limit error stating the 20 MB limit, leaves the filesystem
untouched, writes no temp file, and never invokes the pipeline. -/
theorem claim_C2
    (p : String → FS → Except String String × FS) (u : String)
    (file : UploadFile) (fs0 : FS)
    (hct : contentTypeOk file.content_type = true)
    (hsize : file.content.length > MAX_FILE_SIZE_BYTES) :
    (upscale_image p u file fs0).response =
      Except.error ⟨400, size_limit_detail⟩ ∧
    (upscale_image p u file fs0).fs = fs0 ∧
    (upscale_image p u file fs0).tempPath = none ∧
    ∀ p2, upscale_image p2 u file fs0 = upscale_image p u file fs0 := by
  have hv := validate_size_error file hct hsize
  refine ⟨?_, ?_, ?_, fun p2 => ?_⟩ <;>
    rw [upscale_image_validation_error _ u file fs0 _ hv]
  exact (upscale_image_validation_error p u file fs0 _ hv).symm

/-- Witness for C2 (amended) at an oversized `image/png` upload. -/
theorem claim_C2_witness :
    (upscale_image pipelineOut "u" bigPng emptyFS).response =
      Except.error ⟨400, size_limit_detail⟩ :=
  (claim_C2 pipelineOut "u" bigPng emptyFS (by decide)
    (by show (List.replicate (MAX_FILE_SIZE_BYTES + 1) 0).length >
          MAX_FILE_SIZE_BYTES
        rw [List.length_replicate]
        omega)).1

/-- C2 as frozen is false: an oversized upload whose declared type is
missing gets the invalid-type detail, not a detail stating the 20 MB
limit. -/
theorem claim_C2_counterexample :
    bigBad.content.length > MAX_FILE_SIZE_BYTES ∧
    (upscale_image pipelineOut "u" bigBad emptyFS).response =
      Except.error ⟨400, invalid_type_detail⟩ ∧
    invalid_type_detail ≠ size_limit_detail := by
  refine ⟨?_, rfl, by decide⟩
  show (List.replicate (MAX_FILE_SIZE_BYTES + 1) 0).length > MAX_FILE_SIZE_BYTES
  rw [List.length_replicate]
  omega

/-- C3: for every upload with an allow-listed declared content-type and
size at most the ceiling, if the pipeline returns a path that exists,
the handler returns status 200 with a `FileResponse` for that path,
media type `image/jpeg`, and download filename `upscaled_` followed by
the original filename. -/
theorem claim_C3
    (p : String → FS → Except String String × FS) (u : String)
    (file : UploadFile) (fs0 : FS) (out : String) (fs2 : FS)
    (hct : ∃ s, file.content_type = some s ∧ s ∈ ALLOWED_IMAGE_TYPES)
    (hsize : file.content.length ≤ MAX_FILE_SIZE_BYTES)
    (hpipe : p (temp_path_of u file.filename)
        (writeFile fs0 (temp_path_of u file.filename)) = (Except.ok out, fs2))
    (hout : pathExists fs2 out = true) :
    (upscale_image p u file fs0).response =
      Except.ok ⟨out, "image/jpeg", "upscaled_" ++ file.filename⟩ ∧
    statusOf (upscale_image p u file fs0).response = 200 := by
  obtain ⟨s, hs, hmem⟩ := hct
  have hlow : contentTypeOk file.content_type = true := by
    rw [hs, contentTypeOk_some]
    exact contains_str_lower_of_mem s hmem
  have hv := validate_ok file hlow hsize
  constructor <;> simp [upscale_image, hv, hpipe, hout, statusOf]

/-- Witness for C3 at a small PNG and a pipeline producing `out.jpg`. -/
theorem claim_C3_witness :
    (upscale_image pipelineOut "u" smallPng emptyFS).response =
      Except.ok ⟨"out.jpg", "image/jpeg", "upscaled_" ++ smallPng.filename⟩ := by
  exact (claim_C3 pipelineOut "u" smallPng emptyFS "out.jpg"
    ⟨["out.jpg", "temp_uploads/u.png"]⟩
    ⟨"image/png", rfl, by decide⟩ (by decide) (by decide) (by decide)).1

/-- C4: for every validated upload, if the pipeline returns a path that
does not exist, the handler returns status 500 with detail
`Upscaling failed: output file not found.` and no file body. -/
theorem claim_C4
    (p : String → FS → Except String String × FS) (u : String)
    (file : UploadFile) (fs0 : FS) (out : String) (fs2 : FS)
    (hval : validate_image_file file = Except.ok ())
    (hpipe : p (temp_path_of u file.filename)
        (writeFile fs0 (temp_path_of u file.filename)) = (Except.ok out, fs2))
    (hout : pathExists fs2 out = false) :
    (upscale_image p u file fs0).response =
      Except.error ⟨500, "Upscaling failed: output file not found."⟩ := by
  simp [upscale_image, hval, hpipe, hout]

/-- Witness for C4 at a pipeline returning a never-created path. -/
theorem claim_C4_witness :
    (upscale_image pipelineMissing "u" smallPng emptyFS).response =
      Except.error ⟨500, "Upscaling failed: output file not found."⟩ := by
  exact claim_C4 pipelineMissing "u" smallPng emptyFS "missing.jpg"
    ⟨["temp_uploads/u.png"]⟩ (by decide) (by decide) (by decide)

/-- C5: for every exception raised by the pipeline call, the handler
returns status 500 with the fixed generic detail
`Internal server error` (not the raw exception text), and the raw
message is logged server-side via `logging.error`. -/
theorem claim_C5
    (p : String → FS → Except String String × FS) (u : String)
    (file : UploadFile) (fs0 : FS) (msg : String) (fs2 : FS)
    (hval : validate_image_file file = Except.ok ())
    (hpipe : p (temp_path_of u file.filename)
        (writeFile fs0 (temp_path_of u file.filename)) =
      (Except.error msg, fs2)) :
    (upscale_image p u file fs0).response =
      Except.error ⟨500, "Internal server error"⟩ ∧
    (upscale_image p u file fs0).errorLogs =
      ["API error during image upscaling: " ++ msg] := by
  constructor <;> simp [upscale_image, hval, hpipe]

/-- Witness for C5 at a raising pipeline. -/
theorem claim_C5_witness :
    (upscale_image pipelineThrow "u" smallPng emptyFS).response =
      Except.error ⟨500, "Internal server error"⟩ ∧
    (upscale_image pipelineThrow "u" smallPng emptyFS).errorLogs =
      ["API error during image upscaling: " ++ "boom"] := by
  exact claim_C5 pipelineThrow "u" smallPng emptyFS "boom"
    ⟨["temp_uploads/u.png"]⟩ (by decide) (by decide)

/-- C6: two requests uploading files with the same original filename
but different drawn uuids write to different temporary paths, each of
the form `temp_uploads/` followed by the uuid, a dot, and the derived
extension. -/
theorem claim_C6
    (p1 p2 : String → FS → Except String String × FS)
    (u1 u2 : String) (f1 f2 : UploadFile) (fsA fsB : FS)
    (hname : f1.filename = f2.filename)
    (hv1 : validate_image_file f1 = Except.ok ())
    (hv2 : validate_image_file f2 = Except.ok ())
    (hu : u1 ≠ u2) :
    (upscale_image p1 u1 f1 fsA).tempPath =
      some (temp_path_of u1 f1.filename) ∧
    (upscale_image p2 u2 f2 fsB).tempPath =
      some (temp_path_of u2 f2.filename) ∧
    temp_path_of u1 f1.filename ≠ temp_path_of u2 f2.filename ∧
    temp_path_of u1 f1.filename =
      os_path_join TEMP_UPLOAD_DIR (u1 ++ "." ++ extOf f1.filename) := by
  refine ⟨upscale_image_tempPath p1 u1 f1 fsA hv1,
          upscale_image_tempPath p2 u2 f2 fsB hv2, ?_, rfl⟩
  intro heq
  rw [← hname] at heq
  exact hu (temp_path_of_inj u1 u2 f1.filename heq)

/-- Witness for C6 at two uploads of `a.png` with uuids `u1`, `u2`. -/
theorem claim_C6_witness :
    (upscale_image pipelineOut "u1" smallPng emptyFS).tempPath =
      some (temp_path_of "u1" smallPng.filename) ∧
    (upscale_image pipelineOut "u2" smallPng emptyFS).tempPath =
      some (temp_path_of "u2" smallPng.filename) ∧
    temp_path_of "u1" smallPng.filename ≠
      temp_path_of "u2" smallPng.filename ∧
    temp_path_of "u1" smallPng.filename =
      os_path_join TEMP_UPLOAD_DIR ("u1" ++ "." ++ extOf smallPng.filename) :=
  claim_C6 pipelineOut pipelineOut "u1" "u2" smallPng smallPng
    emptyFS emptyFS rfl (by decide) (by decide) (by decide)

/-- C7: the handler never deletes the temporary upload: whenever
validation passes (so the temp file is written) and the opaque
pipeline preserves existing files, the temp path still exists in the
final filesystem, on success and on every error path alike. -/
theorem claim_C7
    (p : String → FS → Except String String × FS) (u : String)
    (file : UploadFile) (fs0 : FS)
    (hval : validate_image_file file = Except.ok ())
    (hpres : ∀ path q fs, pathExists fs q = true →
       pathExists (p path fs).2 q = true) :
    pathExists (upscale_image p u file fs0).fs
      (temp_path_of u file.filename) = true := by
  have hw := pathExists_writeFile fs0 (temp_path_of u file.filename)
  have hp2 := hpres (temp_path_of u file.filename)
      (temp_path_of u file.filename)
      (writeFile fs0 (temp_path_of u file.filename)) hw
  simp only [upscale_image, hval]
  rcases hp : p (temp_path_of u file.filename)
      (writeFile fs0 (temp_path_of u file.filename)) with ⟨res, fs2⟩
  rw [hp] at hp2
  cases res with
  | error e => simpa [hp] using hp2
  | ok out => by_cases hex : pathExists fs2 out <;> simpa [hp, hex] using hp2

/-- Witness for C7 at a small PNG and the file-creating pipeline. -/
theorem claim_C7_witness :
    pathExists (upscale_image pipelineOut "u" smallPng emptyFS).fs
      (temp_path_of "u" smallPng.filename) = true :=
  claim_C7 pipelineOut "u" smallPng emptyFS (by decide)
    (by intro path q fs h
        simp only [pipelineOut]
        simp only [pathExists] at h ⊢
        simp only [List.contains_cons, h, Bool.or_true])

/-- C8: for every `ConfigEntity` value `c`, constructing
`ImageUpscalerConfig(c)` yields an object whose four fields equal the
corresponding fields of `c`, and the construction does not modify `c`. -/
theorem claim_C8 (c : ConfigEntity) :
    (ImageUpscalerConfig.init c).1.model_name = c.model_name ∧
    (ImageUpscalerConfig.init c).1.max_size = c.max_size ∧
    (ImageUpscalerConfig.init c).1.tile_overlap = c.tile_overlap ∧
    (ImageUpscalerConfig.init c).1.output_dir = c.output_dir ∧
    (ImageUpscalerConfig.init c).2 = c :=
  ⟨rfl, rfl, rfl, rfl, rfl⟩

/-- C9: the content-type check is case-insensitive: `validate_image_file`
raises the invalid-type 400 exactly when the declared content type is
missing, empty, or its (ASCII) lowercasing is absent from the
allow-list; in particular any case variant of an allow-listed type
passes the type check. -/
theorem claim_C9 (file : UploadFile) :
    validate_image_file file = Except.error ⟨400, invalid_type_detail⟩ ↔
      file.content_type = none ∨ file.content_type = some "" ∨
      ∃ s, file.content_type = some s ∧
        ALLOWED_IMAGE_TYPES.contains (str_lower s) = false := by
  constructor
  · intro h
    cases hc : file.content_type with
    | none => exact Or.inl rfl
    | some s =>
      by_cases hok : contentTypeOk file.content_type = true
      · exfalso
        rw [validate_of_ok_type file hok] at h
        split at h
        · exact absurd h (by decide)
        · exact Except.noConfusion h
      · refine Or.inr (Or.inr ⟨s, rfl, ?_⟩)
        rw [hc, contentTypeOk_some] at hok
        simpa using hok
  · intro h
    apply validate_type_error
    rcases h with h | h | ⟨s, hs, hlow⟩
    · rw [h]; rfl
    · rw [h]; rfl
    · rw [hs, contentTypeOk_some, hlow]

/-- C10: the derived extension is the last piece of the dot-split of the
original filename: for a dotless filename it is the whole filename (so
the temp name is the uuid, a dot, and the whole filename); for a
filename with dots it is the part after the last dot. -/
theorem claim_C10 (fname : String) :
    ('.' ∉ fname.data →
       extOf fname = fname ∧
       ∀ u, temp_filename_of u fname = u ++ "." ++ fname) ∧
    (∀ pre post : List Char, fname.data = pre ++ '.' :: post →
       '.' ∉ post → extOf fname = String.mk post) := by
  constructor
  · intro h
    refine ⟨extOf_no_dot fname h, fun u => ?_⟩
    rw [temp_filename_of, extOf_no_dot fname h]
  · intro pre post hdata hpost
    exact extOf_after_last_dot fname pre post hdata hpost

/-- Witness for C10 at the filenames `archive` and `a.tar.gz`. -/
theorem claim_C10_witness :
    extOf "archive" = "archive" ∧
    temp_filename_of "u" "archive" = "u" ++ "." ++ "archive" ∧
    extOf "a.tar.gz" = String.mk ['g', 'z'] :=
  ⟨((claim_C10 "archive").1 (by decide)).1,
   ((claim_C10 "archive").1 (by decide)).2 "u",
   (claim_C10 "a.tar.gz").2 ['a', '.', 't', 'a', 'r'] ['g', 'z']
     (by decide) (by decide)⟩

end ImageUpscaler
